import Mathlib

/-!
Verification development for the Zoom meeting-notes archiver.

The definitions below are a shallow embedding of the TypeScript sources:

* `src/parsers/transcript-parser.ts` — VTT/SRT caption parsing;
* `src/parsers/action-items.ts` — heuristic action-item extraction;
* `src/services/state-manager.ts` — the idempotency state store;
* `src/services/zoom-api.ts` — request layer (401 interceptor, date-range
  chunking, file download, meeting-summary fetch);
* `index.ts` — the orchestrator (`main` loop and `processMeeting`).

JavaScript strings are modelled as `List Char` internally (with `String`
at the API boundary) so that every operation is structurally recursive and
evaluates inside the kernel; JS objects used as string-keyed maps are
modelled as insertion-ordered association lists; machine time
(`Date.getTime()`) is modelled as natural numbers counting milliseconds; JS
`number` arithmetic on the small decimal constants of the confidence score
is modelled with `ℚ`.
-/

namespace Zoom

/-- Model of JavaScript `String.prototype.trim`: drop whitespace from both
ends of the character list. -/
def jsTrim (cs : List Char) : List Char :=
  ((cs.dropWhile Char.isWhitespace).reverse.dropWhile Char.isWhitespace).reverse

/-- Model of JavaScript `split` on a single-character separator: `[[]]` on the
empty string, every separator occurrence opens a new field. -/
def splitOnChar (sep : Char) : List Char → List (List Char)
  | [] => [[]]
  | c :: cs =>
    if c = sep then
      [] :: splitOnChar sep cs
    else
      match splitOnChar sep cs with
      | [] => [[c]]
      | field :: rest => (c :: field) :: rest

/-- Model of JavaScript `String.prototype.includes`: does `pat` occur as a
contiguous sublist? -/
def containsSub (pat : List Char) : List Char → Bool
  | [] => pat.isEmpty
  | c :: cs => pat.isPrefixOf (c :: cs) || containsSub pat (cs)

/-- Model of JavaScript `line.split(pat)[0]`: the prefix before the first
occurrence of `pat` (the whole list when `pat` does not occur). -/
def takeBeforeSub (pat : List Char) : List Char → List Char
  | [] => []
  | c :: cs => if pat.isPrefixOf (c :: cs) then [] else c :: takeBeforeSub pat cs

/-- Model of JavaScript `Array.prototype.join(' ')`. -/
def joinSpace : List (List Char) → List Char
  | [] => []
  | [x] => x
  | x :: xs => x ++ ' ' :: joinSpace xs

/-- Segment of a parsed transcript (`TranscriptSegment` in `types/index.ts`). -/
structure TranscriptSegment where
  speaker : String
  timestamp : String
  text : String
deriving DecidableEq, Repr

/-- Result of transcript parsing (`ParsedTranscript` in `types/index.ts`). -/
structure ParsedTranscript where
  segments : List TranscriptSegment
  rawText : String
deriving DecidableEq, Repr

/-- Embedding of `extractSpeakerAndText` (transcript-parser.ts:140-152): if a
colon occurs at index 1..49 the prefix is the speaker and the trimmed
remainder the text, else the speaker is "Unknown" and the trimmed line the
text. -/
def extractSpeakerAndText (line : List Char) : List Char × List Char :=
  let colonIndex := line.indexOf ':'
  if line.contains ':' ∧ 0 < colonIndex ∧ colonIndex < 50 then
    (jsTrim (line.take colonIndex), jsTrim (line.drop (colonIndex + 1)))
  else
    ("Unknown".toList, jsTrim line)

/-- Embedding of `formatTimestamp` (transcript-parser.ts:157-163): normalize
comma separators to dots, keep the part before the first dot, trim. -/
def formatTimestamp (timestamp : List Char) : List Char :=
  jsTrim ((splitOnChar '.' (timestamp.map (fun c => if c = ',' then '.' else c))).headD [])

/-- Finalize one SRT cue: the body of the flush blocks at
transcript-parser.ts:85-99 and 116-127. -/
def srtFlush (currentTimestamp : List Char) (currentText : List (List Char))
    (segments : List TranscriptSegment) : List TranscriptSegment :=
  let fullText := joinSpace currentText
  let st := extractSpeakerAndText fullText
  if st.2 ≠ [] then
    segments ++ [⟨String.mk st.1, String.mk (formatTimestamp currentTimestamp), String.mk st.2⟩]
  else
    segments

/-- Embedding of the `parseSRT` line loop (transcript-parser.ts:79-127),
carrying `currentTimestamp` and the accumulated `currentText` lines. -/
def parseSRTAux : List (List Char) → List Char → List (List Char) →
    List TranscriptSegment → List TranscriptSegment
  | [], currentTimestamp, currentText, segments =>
    if currentText ≠ [] ∧ currentTimestamp ≠ [] then
      srtFlush currentTimestamp currentText segments
    else
      segments
  | rawLine :: rest, currentTimestamp, currentText, segments =>
    let line := jsTrim rawLine
    if line = [] ∨ line.all Char.isDigit then
      if currentText ≠ [] ∧ currentTimestamp ≠ [] then
        parseSRTAux rest [] [] (srtFlush currentTimestamp currentText segments)
      else
        parseSRTAux rest currentTimestamp currentText segments
    else if containsSub "-->".toList line then
      parseSRTAux rest (jsTrim (takeBeforeSub "-->".toList line)) currentText segments
    else if currentTimestamp ≠ [] then
      parseSRTAux rest currentTimestamp (currentText ++ [line]) segments
    else
      parseSRTAux rest currentTimestamp currentText segments

/-- Embedding of `parseSRT` (transcript-parser.ts:72-134). -/
def parseSRT (content : String) : ParsedTranscript :=
  let segments := parseSRTAux (splitOnChar '\n' content.toList) [] [] []
  { segments := segments
    rawText := String.mk (joinSpace (segments.map (fun s => s.text.toList))) }

/-- Embedding of the `parseVTT` line loop (transcript-parser.ts:24-56). -/
def parseVTTAux : List (List Char) → List Char → List TranscriptSegment →
    List TranscriptSegment
  | [], _, segments => segments
  | rawLine :: rest, currentTimestamp, segments =>
    let line := jsTrim rawLine
    if line = "WEBVTT".toList ∨ line = [] ∨ line.all Char.isDigit then
      parseVTTAux rest currentTimestamp segments
    else if containsSub "-->".toList line then
      parseVTTAux rest (jsTrim (takeBeforeSub "-->".toList line)) segments
    else if currentTimestamp ≠ [] then
      let st := extractSpeakerAndText line
      let segments' :=
        if st.2 ≠ [] then
          segments ++
            [⟨String.mk st.1, String.mk (formatTimestamp currentTimestamp), String.mk st.2⟩]
        else
          segments
      parseVTTAux rest [] segments'
    else
      parseVTTAux rest currentTimestamp segments

/-- Embedding of `parseVTT` (transcript-parser.ts:17-63). -/
def parseVTT (content : String) : ParsedTranscript :=
  let segments := parseVTTAux (splitOnChar '\n' content.toList) [] []
  { segments := segments
    rawText := String.mk (joinSpace (segments.map (fun s => s.text.toList))) }

/-- Embedding of `parseTranscript` (transcript-parser.ts:168-186): dispatch on
the lower-cased file extension, else sniff for "WEBVTT", else default to SRT. -/
def parseTranscript (content : String) (fileExtension : String) : ParsedTranscript :=
  let normalizedExt := fileExtension.toList.map Char.toLower
  if normalizedExt = "vtt".toList then parseVTT content
  else if normalizedExt = "srt".toList then parseSRT content
  else if containsSub "WEBVTT".toList content.toList then parseVTT content
  else parseSRT content

/-- Embedding of the run-status computation (index.ts:104):
`errorCount === 0 ? 'success' : errorCount < successCount ? 'partial' : 'failure'`. -/
def runStatus (successCount errorCount : Nat) : String :=
  if errorCount = 0 then "success"
  else if errorCount < successCount then "partial"
  else "failure"

/-- Extracted action item (`ActionItem` in `types/index.ts`); the JS float
`confidence` is modelled with `ℚ`. -/
structure ActionItem where
  text : String
  assignee : Option String
  dueDate : Option String
  confidence : ℚ
deriving DecidableEq, Repr

/-- Embedding of `countPatternMatches` (action-items.ts:74-76): how many of the
`ACTION_PATTERNS` regex tests succeed on the text.  The five regex tests are
opaque to this development and are passed in as `actionPatterns`. -/
def countPatternMatches (actionPatterns : List (String → Bool)) (text : String) : Nat :=
  (actionPatterns.filter (fun pattern => pattern text)).length

/-- Embedding of `extractAssignee` (action-items.ts:81-95): first capture of an
`ASSIGNEE_PATTERNS` regex (each modelled as a `String → Option String`), else
the speaker when a first-person obligation phrase occurs and the speaker is
known. -/
def extractAssignee (assigneePatterns : List (String → Option String))
    (firstPersonTest : String → Bool) (text speaker : String) : Option String :=
  match assigneePatterns.findSome? (fun pattern => pattern text) with
  | some name => some name
  | none => if firstPersonTest text ∧ speaker ≠ "Unknown" then some speaker else none

/-- Embedding of `extractDueDate` (action-items.ts:100-109): first capture of a
`DUE_DATE_PATTERNS` regex. -/
def extractDueDate (dueDatePatterns : List (String → Option String))
    (text : String) : Option String :=
  dueDatePatterns.findSome? (fun pattern => pattern text)

/-- Embedding of `calculateConfidence` (action-items.ts:114-131). -/
def calculateConfidence (patternMatches : Nat) (hasAssignee hasDueDate : Bool) : ℚ :=
  let confidence : ℚ := 3/10 + min ((patternMatches : ℚ) * (15/100)) (45/100)
  let confidence := if hasAssignee then confidence + 15/100 else confidence
  let confidence := if hasDueDate then confidence + 1/10 else confidence
  min confidence 1

/-- Per-segment body of the `extractActionItems` loop (action-items.ts:37-59):
a segment yields an item exactly when at least two patterns match. -/
def segmentActionItem (actionPatterns : List (String → Bool))
    (assigneePatterns : List (String → Option String)) (firstPersonTest : String → Bool)
    (dueDatePatterns : List (String → Option String))
    (segment : TranscriptSegment) : Option ActionItem :=
  let matchCount := countPatternMatches actionPatterns segment.text
  if matchCount ≥ 2 then
    let assignee := extractAssignee assigneePatterns firstPersonTest segment.text segment.speaker
    let dueDate := extractDueDate dueDatePatterns segment.text
    some
      { text := String.mk (jsTrim segment.text.toList)
        assignee := assignee
        dueDate := dueDate
        confidence := calculateConfidence matchCount assignee.isSome dueDate.isSome }
  else
    none

/-- Embedding of `extractActionItems` (action-items.ts:31-69): the per-segment
items followed by the explicit "action items:" section items
(`extractExplicitActionItems`, passed in opaquely as `explicitExtractor`). -/
def extractActionItems (actionPatterns : List (String → Bool))
    (assigneePatterns : List (String → Option String)) (firstPersonTest : String → Bool)
    (dueDatePatterns : List (String → Option String))
    (explicitExtractor : String → List ActionItem)
    (transcript : ParsedTranscript) : List ActionItem :=
  (transcript.segments.filterMap
      (segmentActionItem actionPatterns assigneePatterns firstPersonTest dueDatePatterns)) ++
    explicitExtractor transcript.rawText

/-- Entry of the processed-recordings ledger (`ProcessedRecording` in
`types/index.ts`). -/
structure ProcessedRecording where
  uuid : String
  meetingId : String
  processedAt : String
  filePath : String
  hash : String
deriving DecidableEq, Repr

/-- Lookup in a JS object used as a string-keyed map. -/
def objLookup (entries : List (String × ProcessedRecording)) (key : String) :
    Option ProcessedRecording :=
  match entries with
  | [] => none
  | (k, v) :: rest => if k = key then some v else objLookup rest key

/-- Model of JS `obj[key] = value` on an insertion-ordered object: replace the
value in place when the key exists, else append the new binding. -/
def objSet (entries : List (String × ProcessedRecording)) (key : String)
    (value : ProcessedRecording) : List (String × ProcessedRecording) :=
  match entries with
  | [] => [(key, value)]
  | (k, v) :: rest =>
    if k = key then (key, value) :: rest else (k, v) :: objSet rest key value

/-- Run statistics (`State.statistics` in `types/index.ts`). -/
structure Statistics where
  totalMeetings : Nat
  lastRunStatus : String
  lastRunAt : String
  consecutiveFailures : Nat
deriving DecidableEq, Repr

/-- Persistent pipeline state (`State` in `types/index.ts`). -/
structure State where
  lastFetchTimestamp : String
  processedRecordings : List (String × ProcessedRecording)
  statistics : Statistics
deriving DecidableEq, Repr

/-- Embedding of `StateManager.isProcessed` (state-manager.ts:59-61):
`uuid in this.state.processedRecordings`. -/
def isProcessed (st : State) (uuid : String) : Bool :=
  (objLookup st.processedRecordings uuid).isSome

/-- Embedding of `StateManager.addProcessedRecording` (state-manager.ts:66-69):
assign under the entry's uuid and increment `totalMeetings`; there is no
duplicate check and no failure path. -/
def addProcessedRecording (st : State) (recording : ProcessedRecording) : State :=
  { st with
    processedRecordings := objSet st.processedRecordings recording.uuid recording
    statistics := { st.statistics with totalMeetings := st.statistics.totalMeetings + 1 } }

/-- Embedding of `StateManager.updateStatistics` (state-manager.ts:88-97). -/
def updateStatistics (st : State) (status : String) (now : String) : State :=
  { st with
    statistics :=
      { st.statistics with
        lastRunStatus := status
        lastRunAt := now
        consecutiveFailures :=
          if status = "failure" then st.statistics.consecutiveFailures + 1 else 0 } }

/-- Meeting listed by the Reports API (`ZoomMeeting`); only the fields the
orchestrator loop reads are modelled. -/
structure ZoomMeeting where
  uuid : String
  topic : String
deriving DecidableEq, Repr

/-- Meeting metadata of a converted note (`MeetingMetadata` in
`types/index.ts`, the fields `processMeeting` reads). -/
structure MeetingMetadata where
  title : String
  meetingId : String
  uuid : String
  startTime : String
deriving DecidableEq, Repr

/-- Converted meeting note (`MeetingNote` in `types/index.ts`). -/
structure MeetingNote where
  metadata : MeetingMetadata
  transcript : ParsedTranscript
  actionItems : List ActionItem
  keyPoints : List String
deriving DecidableEq, Repr

/-- Embedding of `processMeeting` (index.ts:131-178).  The summary payload
type is abstract; the collaborators of the function — the converter
(`convertZoomSummaryToMeetingNote`), the renderer (`generateMarkdown`), path
construction, the filesystem probe (`fileExists`), the clock and the content
hash — are passed in as explicit parameters.  The result is the value
returned to the loop in `main`: `none` models the `return null` skip paths. -/
def processMeeting {σ : Type} (aiSummary : Option σ) (convert : σ → MeetingNote)
    (render : MeetingNote → String) (mkFilePath : MeetingNote → String)
    (fileEx : String → Bool) (now : String) (hashFn : String → String) :
    Option ProcessedRecording :=
  match aiSummary with
  | none => none
  | some s =>
    let meetingNote := convert s
    let markdown := render meetingNote
    let filePath := mkFilePath meetingNote
    if fileEx filePath then
      none
    else
      some
        { uuid := meetingNote.metadata.uuid
          meetingId := meetingNote.metadata.meetingId
          processedAt := now
          filePath := filePath
          hash := hashFn markdown }

/-- Outcome of processing one meeting in a run against a fixed upstream:
`processMeeting` returned an entry, returned `null`, or threw. -/
inductive MeetingOutcome where
  | success (entry : ProcessedRecording)
  | skipped
  | errored
deriving DecidableEq, Repr

/-- Conversion of the `processMeeting` return value to the outcome recorded by
`main` (index.ts:84-91): an entry counts as success, `null` as a skip. -/
def outcomeOfResult (result : Option ProcessedRecording) : MeetingOutcome :=
  match result with
  | some entry => MeetingOutcome.success entry
  | none => MeetingOutcome.skipped

/-- State of the per-meeting loop in `main`: the `StateManager` state plus the
three local counters (index.ts:66-68). -/
structure LoopState where
  state : State
  successCount : Nat
  skipCount : Nat
  errorCount : Nat
deriving DecidableEq, Repr

/-- Embedding of one iteration of the per-meeting loop (index.ts:70-99): an
already-processed uuid is skipped; otherwise the meeting's outcome either adds
a processed recording and a success, or a skip, or an error. -/
def processStep (outcome : ZoomMeeting → MeetingOutcome) (ls : LoopState)
    (meeting : ZoomMeeting) : LoopState :=
  if isProcessed ls.state meeting.uuid then
    { ls with skipCount := ls.skipCount + 1 }
  else
    match outcome meeting with
    | MeetingOutcome.success entry =>
      { ls with
        state := addProcessedRecording ls.state entry
        successCount := ls.successCount + 1 }
    | MeetingOutcome.skipped => { ls with skipCount := ls.skipCount + 1 }
    | MeetingOutcome.errored => { ls with errorCount := ls.errorCount + 1 }

/-- The whole per-meeting loop of `main` (index.ts:70-99) over a list of
fetched meetings. -/
def runLoop (outcome : ZoomMeeting → MeetingOutcome) (ls : LoopState)
    (meetings : List ZoomMeeting) : LoopState :=
  meetings.foldl (processStep outcome) ls

/-- HTTP response delivered to the client for one request, as far as the code
inspects it: a 2xx with payload, an HTTP error status together with the
optional Zoom error `code` of the body, or a network-level failure. -/
inductive HttpResponse (α : Type) where
  | ok (data : α)
  | err (status : Option Nat) (code : Option Int)
deriving DecidableEq, Repr

/-- Outcome of one logical request through the shared `axiosInstance`,
together with the number of network calls made and of token refreshes
(`authClient.clearCache()` followed by a fresh `getAccessToken()`). -/
structure RequestTally (α : Type) where
  result : HttpResponse α
  networkCalls : Nat
  tokenRefreshes : Nat
deriving DecidableEq, Repr

/-- Embedding of a GET through `axiosInstance` with the response interceptor
of `ZoomApiClient`'s constructor (zoom-api.ts:39-51): a first 401 clears the
token cache, refreshes the token and replays the request once (`_retry`);
whatever the replay returns is final.  Every other response is final after a
single call.  `r1` is the upstream's response to the first call and `r2` its
response to the replay (unused when no replay happens). -/
def interceptedGet {α : Type} (r1 r2 : HttpResponse α) : RequestTally α :=
  match r1 with
  | HttpResponse.ok d => ⟨HttpResponse.ok d, 1, 0⟩
  | HttpResponse.err (some status) code =>
    if status = 401 then ⟨r2, 2, 1⟩ else ⟨HttpResponse.err (some status) code, 1, 0⟩
  | HttpResponse.err none code => ⟨HttpResponse.err none code, 1, 0⟩

/-- Outcome of `downloadFile`: the text body on success, `none` for the thrown
`Error('Failed to download file: ...')`, plus network-call and token-refresh
tallies. -/
structure DownloadTally where
  result : Option String
  networkCalls : Nat
  tokenRefreshes : Nat
deriving DecidableEq, Repr

/-- Embedding of `downloadFile` (zoom-api.ts:252-273): one plain `axios.get`
with the current token — the instance interceptor does not apply — and a
generic thrown error on any failure.  `r2` is the response the upstream would
give to a retry; the code never issues one. -/
def downloadFile (r1 r2 : HttpResponse String) : DownloadTally :=
  match r1 with
  | HttpResponse.ok body => ⟨some body, 1, 0⟩
  | HttpResponse.err _ _ => ⟨none, 1, 0⟩

/-- Embedding of `getMeetingSummary` (zoom-api.ts:278-308): the GET goes
through `axiosInstance` (so the 401 interceptor applies); the catch block
returns `null` both for the "no summary" cases (404 or body code 3001) and
for every other error. -/
def getMeetingSummary {α : Type} (r1 r2 : HttpResponse α) : Option α :=
  match (interceptedGet r1 r2).result with
  | HttpResponse.ok d => some d
  | HttpResponse.err status code =>
    if status = some 404 ∨ code = some 3001 then none
    else none

/-- Milliseconds per day, as in `splitDateRange` (zoom-api.ts:225). -/
def msPerDay : Nat := 24 * 60 * 60 * 1000

/-- Embedding of the `while` loop of `splitDateRange` (zoom-api.ts:231-244)
over times in milliseconds: while `currentFrom < endDate`, emit the chunk
`[currentFrom, min (currentFrom + maxMs) endDate]` and restart one
millisecond after its end. -/
def splitDateRangeAux (maxMs : Nat) (currentFrom endDate : Nat) : List (Nat × Nat) :=
  if h : currentFrom < endDate then
    (currentFrom, min (currentFrom + maxMs) endDate) ::
      splitDateRangeAux maxMs (min (currentFrom + maxMs) endDate + 1) endDate
  else
    []
termination_by endDate - currentFrom
decreasing_by simp_wf; omega

/-- Embedding of `splitDateRange` (zoom-api.ts:223-247). -/
def splitDateRange (dateFrom dateTo maxDays : Nat) : List (Nat × Nat) :=
  splitDateRangeAux (maxDays * msPerDay) dateFrom dateTo

/-- Checker for the chunk-chain shape claimed of `splitDateRange`: the list is
nonempty, starts at `dateFrom`, each chunk starts one millisecond after its
predecessor ends, and the last chunk ends at `dateTo`. -/
def isChain (dateFrom dateTo : Nat) : List (Nat × Nat) → Bool
  | [] => false
  | [c] => c.1 = dateFrom ∧ c.2 = dateTo
  | c :: c' :: rest => c.1 = dateFrom && isChain (c.2 + 1) dateTo (c' :: rest)

/-- Lookup after a JS object assignment: the assigned key now maps to the new
value, every other key is untouched. -/
theorem objLookup_objSet (m : List (String × ProcessedRecording)) (key : String)
    (v : ProcessedRecording) (q : String) :
    objLookup (objSet m key v) q = if key = q then some v else objLookup m q := by
  induction m with
  | nil => simp [objSet, objLookup]
  | cons kv rest ih =>
    obtain ⟨a, b⟩ := kv
    by_cases h1 : a = key
    · subst h1
      by_cases h2 : a = q <;> simp [objSet, objLookup, h2]
    · by_cases h2 : a = q
      · subst h2
        have hk : ¬ key = a := fun hh => h1 hh.symm
        simp [objSet, objLookup, h1, hk]
      · simp [objSet, objLookup, h1, h2, ih]

/-- A JS object assignment grows the map by one binding exactly when the key
was absent. -/
theorem objSet_length (m : List (String × ProcessedRecording)) (key : String)
    (v : ProcessedRecording) :
    (objSet m key v).length =
      if (objLookup m key).isSome then m.length else m.length + 1 := by
  induction m with
  | nil => simp [objSet, objLookup]
  | cons kv rest ih =>
    obtain ⟨a, b⟩ := kv
    by_cases h : a = key <;> simp [objSet, objLookup, h, ih] <;> split_ifs <;> simp

/-- C5: claimed — `recordProcessed` fails with `DuplicateKeyError` when the
uuid is already present.  Refutation at a concrete input: after recording a
uuid once, recording a second entry with the same uuid succeeds (the
embedding of `addProcessedRecording`, state-manager.ts:66-69, is a total
function because the source has no failure path), silently overwrites the
stored entry, and still increments `totalMeetings` to 2. -/
theorem addProcessedRecording_duplicate_counterexample :
    isProcessed
        (addProcessedRecording ⟨"ts", [], ⟨0, "success", "t0", 0⟩⟩
          ⟨"u1", "m1", "t1", "p1", "h1"⟩) "u1" = true ∧
    addProcessedRecording
        (addProcessedRecording ⟨"ts", [], ⟨0, "success", "t0", 0⟩⟩
          ⟨"u1", "m1", "t1", "p1", "h1"⟩)
        ⟨"u1", "m1", "t2", "p2", "h2"⟩ =
      ⟨"ts", [("u1", ⟨"u1", "m1", "t2", "p2", "h2"⟩)], ⟨2, "success", "t0", 0⟩⟩ := by
  decide

/-- C5 (amended): `addProcessedRecording` never fails.  It always increments
`totalMeetings` by one; it binds the entry's uuid to the entry, leaving every
other key unchanged; the map grows by one binding when the uuid was absent
and keeps its size (overwriting in place) when the uuid was already
present. -/
theorem addProcessedRecording_spec (st : State) (r : ProcessedRecording) :
    (addProcessedRecording st r).statistics.totalMeetings =
      st.statistics.totalMeetings + 1 ∧
    (addProcessedRecording st r).processedRecordings.length =
      (if isProcessed st r.uuid then st.processedRecordings.length
       else st.processedRecordings.length + 1) ∧
    ∀ k : String,
      objLookup (addProcessedRecording st r).processedRecordings k =
        if r.uuid = k then some r else objLookup st.processedRecordings k := by
  refine ⟨rfl, ?_, ?_⟩
  · simpa [addProcessedRecording, isProcessed] using objSet_length st.processedRecordings r.uuid r
  · intro k
    simpa [addProcessedRecording] using objLookup_objSet st.processedRecordings r.uuid r k

/-- C6: claimed — the run status is "partial" exactly when some meetings
errored but at least as many succeeded (`successCount ≥ errorCount > 0`).
Refutation at a concrete input: with one success and one error the code
(index.ts:104) reports "failure", because its middle branch requires strictly
`errorCount < successCount`. -/
theorem runStatus_equal_counts_counterexample :
    runStatus 1 1 = "failure" ∧ runStatus 1 1 ≠ "partial" := by
  refine ⟨rfl, ?_⟩
  decide

/-- C6 (amended): the run status is "success" exactly when no meeting
errored, "partial" exactly when some meetings errored but strictly more
succeeded, and "failure" otherwise (errors at least as many as successes, and
at least one error). -/
theorem runStatus_spec (successCount errorCount : Nat) :
    (runStatus successCount errorCount = "success" ↔ errorCount = 0) ∧
    (runStatus successCount errorCount = "partial" ↔
      0 < errorCount ∧ errorCount < successCount) ∧
    (runStatus successCount errorCount = "failure" ↔
      0 < errorCount ∧ successCount ≤ errorCount) := by
  unfold runStatus
  refine ⟨?_, ?_, ?_⟩ <;> split_ifs with h1 h2 <;> simp_all <;> omega

/-- C9: parsing the caption input
`"1\n00:00:01.000 --> 00:00:03.000\nAlice: Hello team\n\n"` yields exactly one
segment with speaker "Alice", timestamp "00:00:01" and text "Hello team" —
the sequence-number line is skipped, the part before "-->" becomes the start
time with sub-second precision stripped, and the prefix before the colon at
index 5 becomes the speaker.  This holds both for `parseSRT` directly and for
the `parseTranscript` dispatcher with extension "srt". -/
theorem parseSRT_cue_round_trip :
    parseSRT "1\n00:00:01.000 --> 00:00:03.000\nAlice: Hello team\n\n" =
      { segments := [⟨"Alice", "00:00:01", "Hello team"⟩], rawText := "Hello team" } ∧
    parseTranscript "1\n00:00:01.000 --> 00:00:03.000\nAlice: Hello team\n\n" "srt" =
      { segments := [⟨"Alice", "00:00:01", "Hello team"⟩], rawText := "Hello team" } := by
  exact ⟨rfl, rfl⟩

/-- C1: claimed — a meeting for which no structured summary is available is
still processed via the transcript path rather than being skipped.
Refutation at a concrete input: when the summary fetch yields nothing,
`processMeeting` (index.ts:140-143) returns `null` without ever touching a
transcript, and the `main` loop counts the meeting as skipped (skip counter
1, success counter 0, no recording added). -/
theorem processMeeting_no_summary_counterexample :
    processMeeting (σ := Unit) none (fun _ => ⟨⟨"T", "1", "u1", "s"⟩, ⟨[], ""⟩, [], []⟩)
        (fun _ => "md") (fun _ => "path") (fun _ => false) "now" (fun _ => "h") = none ∧
    processStep
        (fun _ =>
          outcomeOfResult
            (processMeeting (σ := Unit) none
              (fun _ => ⟨⟨"T", "1", "u1", "s"⟩, ⟨[], ""⟩, [], []⟩)
              (fun _ => "md") (fun _ => "path") (fun _ => false) "now" (fun _ => "h")))
        ⟨⟨"lf", [], ⟨0, "success", "t", 0⟩⟩, 0, 0, 0⟩ ⟨"u1", "T"⟩ =
      ⟨⟨"lf", [], ⟨0, "success", "t", 0⟩⟩, 0, 1, 0⟩ := by
  exact ⟨rfl, rfl⟩

/-- C1 (amended): `processMeeting` only ever takes the AI-summary path: with
no summary it returns `null` (the meeting is counted as skipped), and with a
summary it converts and renders it, skipping when the output file already
exists and otherwise producing the processed-recording entry.  No transcript
is fetched or parsed by the orchestrator. -/
theorem processMeeting_summary_only {σ : Type} (convert : σ → MeetingNote)
    (render : MeetingNote → String) (mkFilePath : MeetingNote → String)
    (fileEx : String → Bool) (now : String) (hashFn : String → String) :
    processMeeting none convert render mkFilePath fileEx now hashFn = none ∧
    ∀ s : σ,
      processMeeting (some s) convert render mkFilePath fileEx now hashFn =
        (if fileEx (mkFilePath (convert s)) then none
         else some
           ⟨(convert s).metadata.uuid, (convert s).metadata.meetingId, now,
             mkFilePath (convert s), hashFn (render (convert s))⟩) := by
  exact ⟨rfl, fun s => rfl⟩

/-- C3: claimed — a 5xx response or a network-level failure is retried up to
3 attempts with exponential backoff.  Refutation at a concrete input: through
the shared instance's interceptor (zoom-api.ts:39-51, the only retry logic in
the client) a 500 response, and likewise a network-level failure, surfaces to
the caller after exactly one network call and zero retries — even when a
retry would have succeeded. -/
theorem interceptedGet_no_5xx_retry_counterexample :
    interceptedGet (HttpResponse.err (some 500) none) (HttpResponse.ok "would-succeed") =
      ⟨HttpResponse.err (some 500) none, 1, 0⟩ ∧
    interceptedGet (HttpResponse.err none none) (HttpResponse.ok "would-succeed") =
      ⟨HttpResponse.err none none, 1, 0⟩ := by
  exact ⟨rfl, rfl⟩

/-- C3 (amended): the client has no 5xx/network retry and no backoff; the
only retry is the 401 interceptor.  A non-401 HTTP error or a network-level
failure is surfaced after exactly one call and no token refresh; a first 401
causes one token refresh and exactly one replay, whose response (whatever it
is) is final; a 2xx succeeds on the single call. -/
theorem interceptedGet_spec {α : Type} (status : Nat) (code : Option Int)
    (r2 : HttpResponse α) (h : status ≠ 401) :
    interceptedGet (HttpResponse.err (some status) code) r2 =
      ⟨HttpResponse.err (some status) code, 1, 0⟩ ∧
    interceptedGet (HttpResponse.err none code) r2 = ⟨HttpResponse.err none code, 1, 0⟩ ∧
    interceptedGet (HttpResponse.err (some 401) code) r2 = ⟨r2, 2, 1⟩ ∧
    ∀ d : α, interceptedGet (HttpResponse.ok d) r2 = ⟨HttpResponse.ok d, 1, 0⟩ := by
  refine ⟨?_, rfl, rfl, fun d => rfl⟩
  simp [interceptedGet, h]

/-- C3 witness: the amended behaviour at status 500. -/
theorem interceptedGet_spec_witness :
    (500 : Nat) ≠ 401 ∧
    (interceptedGet (HttpResponse.err (some 500) none) (HttpResponse.ok (7 : Nat)) =
        ⟨HttpResponse.err (some 500) none, 1, 0⟩ ∧
      interceptedGet (HttpResponse.err none none) (HttpResponse.ok (7 : Nat)) =
        ⟨HttpResponse.err none none, 1, 0⟩ ∧
      interceptedGet (HttpResponse.err (some 401) none) (HttpResponse.ok (7 : Nat)) =
        ⟨HttpResponse.ok 7, 2, 1⟩ ∧
      ∀ d : Nat,
        interceptedGet (HttpResponse.ok d) (HttpResponse.ok (7 : Nat)) =
          ⟨HttpResponse.ok d, 1, 0⟩) := by
  exact ⟨by decide, interceptedGet_spec 500 none (HttpResponse.ok 7) (by decide)⟩

/-- C4: claimed — a download hitting a first 401 invalidates the token,
refreshes it and retries once, succeeding if the retry returns 200 (two
network calls, one refresh).  Refutation at a concrete input: `downloadFile`
(zoom-api.ts:252-273) uses a plain `axios.get`, not the intercepted instance,
so a 401 followed by a would-be 200 fails after exactly one network call with
zero token refreshes. -/
theorem downloadFile_401_counterexample :
    downloadFile (HttpResponse.err (some 401) none) (HttpResponse.ok "file-content") =
      ⟨none, 1, 0⟩ := by
  exact rfl

/-- C4 (amended): `downloadFile` issues exactly one request with the current
token: a 2xx returns the body after one call, and every failure — 401
included — surfaces as the generic download error after one call, with no
token invalidation and no retry. -/
theorem downloadFile_spec (r2 : HttpResponse String) (body : String)
    (status : Option Nat) (code : Option Int) :
    downloadFile (HttpResponse.ok body) r2 = ⟨some body, 1, 0⟩ ∧
    downloadFile (HttpResponse.err status code) r2 = ⟨none, 1, 0⟩ := by
  exact ⟨rfl, rfl⟩

/-- Keys present in the state stay present across one loop iteration. -/
theorem isProcessed_processStep (o : ZoomMeeting → MeetingOutcome) (ls : LoopState)
    (m : ZoomMeeting) (u : String) (h : isProcessed ls.state u = true) :
    isProcessed (processStep o ls m).state u = true := by
  unfold processStep
  split_ifs with h1
  · exact h
  · cases ho : o m with
    | success entry =>
      simp only [isProcessed, addProcessedRecording, objLookup_objSet]
      split_ifs with h2
      · rfl
      · exact h
    | skipped => exact h
    | errored => exact h

/-- Keys present in the state stay present across the whole loop. -/
theorem isProcessed_runLoop (o : ZoomMeeting → MeetingOutcome) (ms : List ZoomMeeting)
    (ls : LoopState) (u : String) (h : isProcessed ls.state u = true) :
    isProcessed (runLoop o ls ms).state u = true := by
  induction ms generalizing ls with
  | nil => exact h
  | cons m rest ih => exact ih (processStep o ls m) (isProcessed_processStep o ls m u h)

/-- After a run, every meeting of the batch whose (deterministic) outcome is a
success has its uuid in the processed map — provided successful outcomes are
keyed by the meeting's uuid. -/
theorem runLoop_marks_successes (o : ZoomMeeting → MeetingOutcome)
    (hkey : ∀ m e, o m = MeetingOutcome.success e → e.uuid = m.uuid)
    (ms : List ZoomMeeting) (m : ZoomMeeting) (hm : m ∈ ms) (e : ProcessedRecording)
    (he : o m = MeetingOutcome.success e) (ls : LoopState) :
    isProcessed (runLoop o ls ms).state m.uuid = true := by
  induction hm generalizing ls with
  | head rest =>
    have hstep : isProcessed (processStep o ls m).state m.uuid = true := by
      unfold processStep
      split_ifs with h1
      · exact h1
      · rw [he]
        simp only [isProcessed, addProcessedRecording, objLookup_objSet, hkey m e he]
        simp
    exact isProcessed_runLoop o rest (processStep o ls m) m.uuid hstep
  | tail b hmem ih => exact ih (processStep o ls b)

/-- A pass of the loop over meetings whose successes are all already recorded
leaves the state and the success counter unchanged. -/
theorem runLoop_no_new_entries (o : ZoomMeeting → MeetingOutcome) (ms : List ZoomMeeting)
    (ls : LoopState)
    (hinv : ∀ m ∈ ms, ∀ e, o m = MeetingOutcome.success e →
      isProcessed ls.state m.uuid = true) :
    (runLoop o ls ms).state = ls.state ∧ (runLoop o ls ms).successCount = ls.successCount := by
  induction ms generalizing ls with
  | nil => exact ⟨rfl, rfl⟩
  | cons m0 rest ih =>
    have hstep : (processStep o ls m0).state = ls.state ∧
        (processStep o ls m0).successCount = ls.successCount := by
      unfold processStep
      split_ifs with h1
      · exact ⟨rfl, rfl⟩
      · cases ho : o m0 with
        | success entry =>
          exact absurd (hinv m0 (List.mem_cons_self m0 rest) entry ho) h1
        | skipped => exact ⟨rfl, rfl⟩
        | errored => exact ⟨rfl, rfl⟩
    have htail := ih (processStep o ls m0)
      (fun m hm e he => by rw [hstep.1]; exact hinv m (List.mem_cons_of_mem m0 hm) e he)
    exact ⟨htail.1.trans hstep.1, htail.2.trans hstep.2⟩

/-- C2: a second run of the per-meeting loop over the same meeting list
(unchanged upstream, modelled by a fixed deterministic outcome function whose
successful entries are keyed by the meeting's uuid) adds nothing: any meeting
whose uuid is already a key is skipped — only the skip counter changes — and
after the second pass the processed map (hence its size) and the success
count are exactly those of the first pass. -/
theorem runLoop_second_run_idempotent (o : ZoomMeeting → MeetingOutcome)
    (hkey : ∀ m e, o m = MeetingOutcome.success e → e.uuid = m.uuid)
    (ls0 : LoopState) (ms : List ZoomMeeting) (m' : ZoomMeeting)
    (hm' : isProcessed (runLoop o ls0 ms).state m'.uuid = true) :
    processStep o (runLoop o ls0 ms) m' =
      { runLoop o ls0 ms with skipCount := (runLoop o ls0 ms).skipCount + 1 } ∧
    (runLoop o (runLoop o ls0 ms) ms).state = (runLoop o ls0 ms).state ∧
    (runLoop o (runLoop o ls0 ms) ms).state.processedRecordings.length =
      (runLoop o ls0 ms).state.processedRecordings.length ∧
    (runLoop o (runLoop o ls0 ms) ms).successCount = (runLoop o ls0 ms).successCount := by
  have hpass := runLoop_no_new_entries o ms (runLoop o ls0 ms)
    (fun m hm e he => runLoop_marks_successes o hkey ms m hm e he ls0)
  refine ⟨?_, hpass.1, by rw [hpass.1], hpass.2⟩
  unfold processStep
  rw [if_pos hm']

/-- C2 witness: a concrete second run — one meeting, an outcome that records
it under its own uuid — skips the already-processed meeting and leaves the
map and success count unchanged. -/
theorem runLoop_second_run_idempotent_witness :
    (∀ m e, (fun m : ZoomMeeting => MeetingOutcome.success
        (⟨m.uuid, "1", "t", "p", "h"⟩ : ProcessedRecording)) m = MeetingOutcome.success e →
      e.uuid = m.uuid) ∧
    isProcessed
      (runLoop
        (fun m : ZoomMeeting => MeetingOutcome.success
          (⟨m.uuid, "1", "t", "p", "h"⟩ : ProcessedRecording))
        ⟨⟨"lf", [], ⟨0, "success", "t", 0⟩⟩, 0, 0, 0⟩ [⟨"a", "Standup"⟩]).state "a" = true ∧
    (processStep
        (fun m : ZoomMeeting => MeetingOutcome.success
          (⟨m.uuid, "1", "t", "p", "h"⟩ : ProcessedRecording))
        (runLoop
          (fun m : ZoomMeeting => MeetingOutcome.success
            (⟨m.uuid, "1", "t", "p", "h"⟩ : ProcessedRecording))
          ⟨⟨"lf", [], ⟨0, "success", "t", 0⟩⟩, 0, 0, 0⟩ [⟨"a", "Standup"⟩]) ⟨"a", "Standup"⟩ =
        { runLoop
            (fun m : ZoomMeeting => MeetingOutcome.success
              (⟨m.uuid, "1", "t", "p", "h"⟩ : ProcessedRecording))
            ⟨⟨"lf", [], ⟨0, "success", "t", 0⟩⟩, 0, 0, 0⟩ [⟨"a", "Standup"⟩] with
          skipCount :=
            (runLoop
              (fun m : ZoomMeeting => MeetingOutcome.success
                (⟨m.uuid, "1", "t", "p", "h"⟩ : ProcessedRecording))
              ⟨⟨"lf", [], ⟨0, "success", "t", 0⟩⟩, 0, 0, 0⟩
              [⟨"a", "Standup"⟩]).skipCount + 1 } ∧
      (runLoop
          (fun m : ZoomMeeting => MeetingOutcome.success
            (⟨m.uuid, "1", "t", "p", "h"⟩ : ProcessedRecording))
          (runLoop
            (fun m : ZoomMeeting => MeetingOutcome.success
              (⟨m.uuid, "1", "t", "p", "h"⟩ : ProcessedRecording))
            ⟨⟨"lf", [], ⟨0, "success", "t", 0⟩⟩, 0, 0, 0⟩ [⟨"a", "Standup"⟩])
          [⟨"a", "Standup"⟩]).state =
        (runLoop
          (fun m : ZoomMeeting => MeetingOutcome.success
            (⟨m.uuid, "1", "t", "p", "h"⟩ : ProcessedRecording))
          ⟨⟨"lf", [], ⟨0, "success", "t", 0⟩⟩, 0, 0, 0⟩ [⟨"a", "Standup"⟩]).state ∧
      (runLoop
          (fun m : ZoomMeeting => MeetingOutcome.success
            (⟨m.uuid, "1", "t", "p", "h"⟩ : ProcessedRecording))
          (runLoop
            (fun m : ZoomMeeting => MeetingOutcome.success
              (⟨m.uuid, "1", "t", "p", "h"⟩ : ProcessedRecording))
            ⟨⟨"lf", [], ⟨0, "success", "t", 0⟩⟩, 0, 0, 0⟩ [⟨"a", "Standup"⟩])
          [⟨"a", "Standup"⟩]).state.processedRecordings.length =
        (runLoop
          (fun m : ZoomMeeting => MeetingOutcome.success
            (⟨m.uuid, "1", "t", "p", "h"⟩ : ProcessedRecording))
          ⟨⟨"lf", [], ⟨0, "success", "t", 0⟩⟩, 0, 0, 0⟩
          [⟨"a", "Standup"⟩]).state.processedRecordings.length ∧
      (runLoop
          (fun m : ZoomMeeting => MeetingOutcome.success
            (⟨m.uuid, "1", "t", "p", "h"⟩ : ProcessedRecording))
          (runLoop
            (fun m : ZoomMeeting => MeetingOutcome.success
              (⟨m.uuid, "1", "t", "p", "h"⟩ : ProcessedRecording))
            ⟨⟨"lf", [], ⟨0, "success", "t", 0⟩⟩, 0, 0, 0⟩ [⟨"a", "Standup"⟩])
          [⟨"a", "Standup"⟩]).successCount =
        (runLoop
          (fun m : ZoomMeeting => MeetingOutcome.success
            (⟨m.uuid, "1", "t", "p", "h"⟩ : ProcessedRecording))
          ⟨⟨"lf", [], ⟨0, "success", "t", 0⟩⟩, 0, 0, 0⟩
          [⟨"a", "Standup"⟩]).successCount) := by
  refine ⟨fun m e h => by cases h; rfl, rfl, ?_⟩
  exact runLoop_second_run_idempotent
    (fun m : ZoomMeeting => MeetingOutcome.success
      (⟨m.uuid, "1", "t", "p", "h"⟩ : ProcessedRecording))
    (fun m e h => by cases h; rfl)
    ⟨⟨"lf", [], ⟨0, "success", "t", 0⟩⟩, 0, 0, 0⟩ [⟨"a", "Standup"⟩] ⟨"a", "Standup"⟩ rfl

/-- C8: a transcript segment yields an action item exactly when at least two
of the trigger patterns match its text, and the item's confidence equals
`min(1, 0.3 + min(matchCount * 0.15, 0.45) + (0.15 if assignee) + (0.1 if
dueDate))`; the extractor's output is those per-segment items followed by the
explicit-section items.  The regex tests and capture extractions are opaque
parameters; the threshold, the confidence arithmetic, and the loop shape are
the code's. -/
theorem extractActionItems_threshold_confidence
    (actionPatterns : List (String → Bool))
    (assigneePatterns : List (String → Option String)) (firstPersonTest : String → Bool)
    (dueDatePatterns : List (String → Option String))
    (explicitExtractor : String → List ActionItem)
    (transcript : ParsedTranscript) (s : TranscriptSegment) :
    extractActionItems actionPatterns assigneePatterns firstPersonTest dueDatePatterns
        explicitExtractor transcript =
      transcript.segments.filterMap
          (segmentActionItem actionPatterns assigneePatterns firstPersonTest dueDatePatterns) ++
        explicitExtractor transcript.rawText ∧
    ((segmentActionItem actionPatterns assigneePatterns firstPersonTest dueDatePatterns
        s).isSome ↔ 2 ≤ countPatternMatches actionPatterns s.text) ∧
    (segmentActionItem actionPatterns assigneePatterns firstPersonTest dueDatePatterns
        s).map ActionItem.confidence =
      (if 2 ≤ countPatternMatches actionPatterns s.text then
        some (min 1
          ((3 : ℚ)/10 +
            min ((countPatternMatches actionPatterns s.text : ℚ) * (15/100)) ((45 : ℚ)/100) +
            (if (extractAssignee assigneePatterns firstPersonTest s.text s.speaker).isSome
              then (15 : ℚ)/100 else 0) +
            (if (extractDueDate dueDatePatterns s.text).isSome then (1 : ℚ)/10 else 0)))
       else none) := by
  refine ⟨rfl, ?_, ?_⟩
  · unfold segmentActionItem
    dsimp only
    by_cases h : 2 ≤ countPatternMatches actionPatterns s.text <;> simp [h]
  · unfold segmentActionItem
    dsimp only
    by_cases h : 2 ≤ countPatternMatches actionPatterns s.text
    · rw [if_pos h, if_pos (by exact h)]
      dsimp only [Option.map]
      refine congrArg some ?_
      unfold calculateConfidence
      dsimp only
      split_ifs with ha hd hd <;> rw [min_comm] <;> ring_nf
    · rw [if_neg h, if_neg (by exact h)]
      rfl

/-- C10: when the summary request does not come back 2xx — a 404, a body code
3001, any other HTTP error, or a network-level failure — `getMeetingSummary`
returns `null` instead of propagating an error, and in the `main` loop the
meeting is therefore counted as skipped, never as errored; when it does come
back 2xx the payload is returned. -/
theorem getMeetingSummary_total (α : Type) (r1 r2 : HttpResponse α)
    (convert : α → MeetingNote) (render : MeetingNote → String)
    (mkFilePath : MeetingNote → String) (fileEx : String → Bool) (now : String)
    (hashFn : String → String) (ls : LoopState) (meeting : ZoomMeeting)
    (hnew : isProcessed ls.state meeting.uuid = false)
    (hfail : ∀ d : α, (interceptedGet r1 r2).result ≠ HttpResponse.ok d) :
    getMeetingSummary r1 r2 = none ∧
    processMeeting (getMeetingSummary r1 r2) convert render mkFilePath fileEx now hashFn =
      none ∧
    processStep
        (fun _ =>
          outcomeOfResult
            (processMeeting (getMeetingSummary r1 r2) convert render mkFilePath fileEx now
              hashFn))
        ls meeting =
      { ls with skipCount := ls.skipCount + 1 } ∧
    (∀ d : α, (interceptedGet r1 r2).result = HttpResponse.ok d →
      getMeetingSummary r1 r2 = some d) := by
  have hnone : getMeetingSummary r1 r2 = none := by
    unfold getMeetingSummary
    cases hr : (interceptedGet r1 r2).result with
    | ok d => exact absurd hr (hfail d)
    | err status code =>
      dsimp only
      split_ifs <;> rfl
  refine ⟨hnone, by rw [hnone]; rfl, ?_, ?_⟩
  · unfold processStep
    rw [hnone]
    simp [hnew, outcomeOfResult, processMeeting]
  · intro d hd
    unfold getMeetingSummary
    rw [hd]

/-- C10 witness: a 500 response on the summary request yields `null` and a
skipped (not errored) meeting. -/
theorem getMeetingSummary_total_witness :
    isProcessed
        (⟨⟨"lf", [], ⟨0, "success", "t", 0⟩⟩, 0, 0, 0⟩ : LoopState).state "u1" = false ∧
    (∀ d : Unit,
      (interceptedGet (HttpResponse.err (some 500) none) (HttpResponse.ok ())).result ≠
        HttpResponse.ok d) ∧
    (getMeetingSummary (HttpResponse.err (some 500) none) (HttpResponse.ok ()) = none ∧
      processMeeting
          (getMeetingSummary (HttpResponse.err (some 500) none) (HttpResponse.ok ()))
          (fun _ : Unit => ⟨⟨"T", "1", "u1", "s"⟩, ⟨[], ""⟩, [], []⟩)
          (fun _ => "md") (fun _ => "path") (fun _ => false) "now" (fun _ => "h") = none ∧
      processStep
          (fun _ =>
            outcomeOfResult
              (processMeeting
                (getMeetingSummary (HttpResponse.err (some 500) none) (HttpResponse.ok ()))
                (fun _ : Unit => ⟨⟨"T", "1", "u1", "s"⟩, ⟨[], ""⟩, [], []⟩)
                (fun _ => "md") (fun _ => "path") (fun _ => false) "now" (fun _ => "h")))
          ⟨⟨"lf", [], ⟨0, "success", "t", 0⟩⟩, 0, 0, 0⟩ ⟨"u1", "T"⟩ =
        { (⟨⟨"lf", [], ⟨0, "success", "t", 0⟩⟩, 0, 0, 0⟩ : LoopState) with
            skipCount :=
              (⟨⟨"lf", [], ⟨0, "success", "t", 0⟩⟩, 0, 0, 0⟩ : LoopState).skipCount + 1 } ∧
      ∀ d : Unit,
        (interceptedGet (HttpResponse.err (some 500) none) (HttpResponse.ok ())).result =
          HttpResponse.ok d →
        getMeetingSummary (HttpResponse.err (some 500) none) (HttpResponse.ok ()) =
          some d) := by
  have hfail : ∀ d : Unit,
      (interceptedGet (HttpResponse.err (some 500) none)
        (HttpResponse.ok ())).result ≠ HttpResponse.ok d := by
    intro d h
    simp [interceptedGet] at h
  exact ⟨rfl, hfail,
    getMeetingSummary_total Unit (HttpResponse.err (some 500) none) (HttpResponse.ok ())
      (fun _ : Unit => ⟨⟨"T", "1", "u1", "s"⟩, ⟨[], ""⟩, [], []⟩)
      (fun _ => "md") (fun _ => "path") (fun _ => false) "now" (fun _ => "h")
      ⟨⟨"lf", [], ⟨0, "success", "t", 0⟩⟩, 0, 0, 0⟩ ⟨"u1", "T"⟩ rfl hfail⟩

/-- Chunk count of the `splitDateRange` loop: over a window of `D`
milliseconds it emits `⌈D / (maxMs + 1)⌉` chunks (each full iteration
advances `currentFrom` by `maxMs + 1`). -/
theorem splitDateRangeAux_length (maxMs : Nat) :
    ∀ D f t : Nat, t - f = D →
      (splitDateRangeAux maxMs f t).length = (D + maxMs) / (maxMs + 1) := by
  intro D
  induction D using Nat.strong_induction_on with
  | _ D ih =>
    intro f t hD
    rw [splitDateRangeAux]
    split_ifs with hlt
    · rcases le_or_lt t (f + maxMs) with hle | hgt
      · rw [min_eq_right hle, splitDateRangeAux, dif_neg (by omega)]
        have h1 : 1 * (maxMs + 1) ≤ D + maxMs := by omega
        have h2 : D + maxMs < 2 * (maxMs + 1) := by omega
        rw [Nat.div_eq_of_lt_le h1 h2]
        rfl
      · rw [min_eq_left (by omega)]
        simp only [List.length_cons]
        rw [ih (t - (f + maxMs + 1)) (by omega) (f + maxMs + 1) t rfl]
        have heq2 : t - (f + maxMs + 1) + maxMs = D - 1 := by omega
        have heq3 : D + maxMs = (D - 1) + (maxMs + 1) := by omega
        rw [heq2, heq3, Nat.add_div_right _ (Nat.succ_pos maxMs)]
    · have hz : D = 0 := by omega
      subst hz
      rw [Nat.div_eq_of_lt (by omega)]
      rfl

/-- Every chunk of the `splitDateRange` loop lies inside the window, is
well-formed, and spans at most `maxMs` milliseconds. -/
theorem splitDateRangeAux_mem (maxMs : Nat) :
    ∀ D f t : Nat, t - f = D → ∀ c ∈ splitDateRangeAux maxMs f t,
      f ≤ c.1 ∧ c.1 ≤ c.2 ∧ c.2 ≤ t ∧ c.2 - c.1 ≤ maxMs := by
  intro D
  induction D using Nat.strong_induction_on with
  | _ D ih =>
    intro f t hD c hc
    rw [splitDateRangeAux] at hc
    split_ifs at hc with hlt
    · rcases List.mem_cons.mp hc with rfl | hmem
      · refine ⟨le_refl f, ?_, ?_, ?_⟩ <;> dsimp only <;> omega
      · obtain ⟨h1, h2, h3, h4⟩ :=
          ih (t - (min (f + maxMs) t + 1)) (by omega) (min (f + maxMs) t + 1) t rfl c hmem
        exact ⟨by omega, h2, h3, h4⟩
    · exact absurd hc (List.not_mem_nil c)

/-- The chunks of `splitDateRange` form a contiguous chain from `f` to `t`
(consecutive chunks one millisecond apart, first starting at `f`, last ending
at `t`) whenever the window length is not an exact positive multiple of
`maxMs + 1` — the windows below are far from that degenerate size. -/
theorem splitDateRangeAux_chain (maxMs : Nat) :
    ∀ D f t : Nat, t - f = D → f < t → D % (maxMs + 1) ≠ 0 →
      isChain f t (splitDateRangeAux maxMs f t) = true := by
  intro D
  induction D using Nat.strong_induction_on with
  | _ D ih =>
    intro f t hD hlt hmod
    rw [splitDateRangeAux, dif_pos hlt]
    rcases le_or_lt t (f + maxMs) with hle | hgt
    · rw [min_eq_right hle, splitDateRangeAux, dif_neg (by omega)]
      simp [isChain]
    · rw [min_eq_left (by omega)]
      have hne : f + maxMs + 1 ≠ t := by
        intro heq
        apply hmod
        have hDeq : D = maxMs + 1 := by omega
        rw [hDeq]
        exact Nat.mod_self (maxMs + 1)
      have hlt2 : f + maxMs + 1 < t := by omega
      have hmod2 : (t - (f + maxMs + 1)) % (maxMs + 1) ≠ 0 := by
        intro h0
        apply hmod
        have hDeq : D = (t - (f + maxMs + 1)) + (maxMs + 1) := by omega
        rw [hDeq, Nat.add_mod_right]
        exact h0
      have hrest := ih (t - (f + maxMs + 1)) (by omega) (f + maxMs + 1) t rfl hlt2 hmod2
      rw [splitDateRangeAux, dif_pos hlt2] at hrest ⊢
      simp only [isChain]
      simpa using hrest

/-- A chunk chain with well-formed chunks runs forward: its start is at most
its end. -/
theorem isChain_le (l : List (Nat × Nat)) : ∀ f t : Nat, isChain f t l = true →
    (∀ c ∈ l, c.1 ≤ c.2) → f ≤ t := by
  induction l with
  | nil =>
    intro f t h
    simp [isChain] at h
  | cons c rest ih =>
    intro f t h hle
    cases rest with
    | nil =>
      simp only [isChain, decide_eq_true_eq] at h
      have hc := hle c (List.mem_cons_self c [])
      omega
    | cons c' rest' =>
      simp only [isChain, Bool.and_eq_true, decide_eq_true_eq] at h
      obtain ⟨h1, h2⟩ := h
      have hrec := ih (c.2 + 1) t h2 (fun d hd => hle d (List.mem_cons_of_mem c hd))
      have hc := hle c (List.mem_cons_self c (c' :: rest'))
      omega

/-- A chunk chain from `f` to `t` with well-formed chunks covers exactly the
interval `[f, t]`. -/
theorem isChain_coverage (l : List (Nat × Nat)) : ∀ f t : Nat, isChain f t l = true →
    (∀ c ∈ l, c.1 ≤ c.2) →
    ∀ x : Nat, (f ≤ x ∧ x ≤ t) ↔ ∃ c ∈ l, c.1 ≤ x ∧ x ≤ c.2 := by
  induction l with
  | nil =>
    intro f t h
    simp [isChain] at h
  | cons c rest ih =>
    intro f t h hle x
    cases rest with
    | nil =>
      simp only [isChain, decide_eq_true_eq] at h
      obtain ⟨h1, h2⟩ := h
      subst h1
      subst h2
      simp
    | cons c' rest' =>
      simp only [isChain, Bool.and_eq_true, decide_eq_true_eq] at h
      obtain ⟨h1, h2⟩ := h
      have hcle : c.1 ≤ c.2 := hle c (List.mem_cons_self c (c' :: rest'))
      have htle : c.2 + 1 ≤ t :=
        isChain_le (c' :: rest') (c.2 + 1) t h2
          (fun d hd => hle d (List.mem_cons_of_mem c hd))
      have hrec := ih (c.2 + 1) t h2 (fun d hd => hle d (List.mem_cons_of_mem c hd)) x
      constructor
      · rintro ⟨hfx, hxt⟩
        by_cases hx : x ≤ c.2
        · exact ⟨c, List.mem_cons_self c (c' :: rest'), by omega, hx⟩
        · obtain ⟨d, hd, hd1, hd2⟩ := hrec.mp ⟨by omega, hxt⟩
          exact ⟨d, List.mem_cons_of_mem c hd, hd1, hd2⟩
      · rintro ⟨d, hd, hd1, hd2⟩
        rcases List.mem_cons.mp hd with rfl | hd'
        · constructor <;> omega
        · have hx := hrec.mpr ⟨d, hd', hd1, hd2⟩
          constructor <;> omega

/-- C7: splitting a window of `W` whole days (any `W` a JS `Date` can
represent; JS dates span at most 2·10⁸ days) with the 30-day cap yields
exactly `⌈W/30⌉` chunks; every chunk spans at most 30 days; the chunks form a
contiguous, non-overlapping chain — the first starts at the window start,
each next chunk starts one millisecond after its predecessor ends, the last
ends at the window end; and together the chunks cover exactly the original
window. -/
theorem splitDateRange_chunking (f W : Nat) (hW1 : 1 ≤ W) (hW2 : W ≤ 200000000) :
    (splitDateRange f (f + W * msPerDay) 30).length = (W + 29) / 30 ∧
    (∀ c ∈ splitDateRange f (f + W * msPerDay) 30, c.2 - c.1 ≤ 30 * msPerDay) ∧
    isChain f (f + W * msPerDay) (splitDateRange f (f + W * msPerDay) 30) = true ∧
    (∀ x : Nat, (f ≤ x ∧ x ≤ f + W * msPerDay) ↔
      ∃ c ∈ splitDateRange f (f + W * msPerDay) 30, c.1 ≤ x ∧ x ≤ c.2) := by
  have hms : msPerDay = 86400000 := rfl
  unfold splitDateRange
  have hchain :
      isChain f (f + W * msPerDay)
        (splitDateRangeAux (30 * msPerDay) f (f + W * msPerDay)) = true := by
    apply splitDateRangeAux_chain (30 * msPerDay) (f + W * msPerDay - f) f (f + W * msPerDay) rfl
    · rw [hms]
      omega
    · rw [hms]
      omega
  refine ⟨?_, ?_, hchain, ?_⟩
  · rw [splitDateRangeAux_length (30 * msPerDay) (f + W * msPerDay - f) f (f + W * msPerDay) rfl]
    rw [hms]
    omega
  · intro c hc
    exact (splitDateRangeAux_mem (30 * msPerDay) (f + W * msPerDay - f) f
      (f + W * msPerDay) rfl c hc).2.2.2
  · intro x
    exact isChain_coverage (splitDateRangeAux (30 * msPerDay) f (f + W * msPerDay)) f
      (f + W * msPerDay) hchain
      (fun c hc => (splitDateRangeAux_mem (30 * msPerDay) (f + W * msPerDay - f) f
        (f + W * msPerDay) rfl c hc).2.1) x

/-- C7 witness: a 45-day window starting at epoch 0 splits into 2 chunks with
all the claimed properties. -/
theorem splitDateRange_chunking_witness :
    (1 ≤ 45 ∧ 45 ≤ 200000000) ∧
    ((splitDateRange 0 (0 + 45 * msPerDay) 30).length = (45 + 29) / 30 ∧
      (∀ c ∈ splitDateRange 0 (0 + 45 * msPerDay) 30, c.2 - c.1 ≤ 30 * msPerDay) ∧
      isChain 0 (0 + 45 * msPerDay) (splitDateRange 0 (0 + 45 * msPerDay) 30) = true ∧
      (∀ x : Nat, (0 ≤ x ∧ x ≤ 0 + 45 * msPerDay) ↔
        ∃ c ∈ splitDateRange 0 (0 + 45 * msPerDay) 30, c.1 ≤ x ∧ x ≤ c.2)) := by
  exact ⟨⟨by decide, by decide⟩, splitDateRange_chunking 0 45 (by decide) (by decide)⟩

end Zoom
